import Mathlib

/-!
Verification of docs/conf.py, the Sphinx configuration module of hipCUB.

The module body is embedded shallowly: the external rocm_docs library is a
parameter (a record of the operations conf.py uses, each of which either
returns or raises), the module's global namespace is a map from names to
values, and executing the module yields the final globals, the trace of
library calls made, and the pending exception if one was raised.  Python
semantics that matter here and are modelled faithfully: the from-import on
line 7 binds the global ROCmDocs; a for loop at module level binds its loop
variable as a module global before each body execution; line 17 evaluates
ROCmDocs.SPHINX_VARS through the current global binding of ROCmDocs when
the loop statement starts; line 18 evaluates getattr(docs_core, sphinx_var)
through the current global binding of docs_core, which earlier iterations
of the very same loop may have rebound; an uncaught exception aborts the
module at the raising statement, leaving the bindings made so far in place.
-/

namespace HipcubConf

/-- Python values occurring while docs/conf.py runs: strings, objects
(identified by an id, the line-10 instance among them), the imported
ROCmDocs class, and lists of strings (the shape a SPHINX_VARS attribute
must have to drive the loop). -/
inductive Value where
  | str (s : String)
  | obj (id : Nat)
  | cls
  | strs (l : List String)
  deriving DecidableEq, Repr

/-- A Python exception, identified by its payload. -/
inductive Exn where
  | mk (msg : String)
  deriving DecidableEq, Repr

/-- The NameError raised when line 18 reads an unbound docs_core global. -/
def nameError : Exn := Exn.mk "NameError"

/-- The TypeError raised when line 17 tries to iterate a SPHINX_VARS
attribute that is not a list of strings. -/
def typeError : Exn := Exn.mk "TypeError"

/-- The module's global namespace: a map from names to bound values. -/
def Globals : Type := String → Option Value

/-- Binding one global name. -/
def setG (g : Globals) (k : String) (v : Value) : Globals :=
  fun x => if x = k then some v else g x

/-- The empty namespace, used as a concrete initial state. -/
def gEmpty : Globals := fun _ => none

theorem setG_same (g : Globals) (k : String) (v : Value) : setG g k v k = some v := by
  unfold setG
  simp

theorem setG_ne (g : Globals) (k : String) (v : Value) (x : String) (h : x ≠ k) :
    setG g k v x = g x := by
  unfold setG
  simp [h]

/-- Observable interactions of conf.py with the external rocm_docs library:
the constructor call with its argument, a method call on the constructed
instance, and an attribute read on a receiver value (the then-current value
of the docs_core global). -/
inductive Event where
  | constructCall (arg : String)
  | methodCall (oid : Nat) (m : String)
  | attrRead (recv : Value) (n : String)
  deriving DecidableEq, Repr

/-- The interface of the external rocm_docs library as conf.py uses it: the
class-level list SPHINX_VARS, the constructor, the three methods called on
lines 11-13, and attribute lookup on an arbitrary receiver value.  Each
call either returns a value or raises an exception; the behaviour is
otherwise arbitrary. -/
structure ROCmDocsLib where
  SPHINX_VARS : List String
  construct : String → Except Exn Nat
  run_doxygen : Nat → Except Exn Unit
  enable_api_reference : Nat → Except Exn Unit
  setup : Nat → Except Exn Unit
  getattr : Value → String → Except Exn Value

/-- Result of executing the module or a fragment of it: the globals
produced so far, the trace of library calls made, and the pending exception
(none means the fragment completed normally). -/
structure ExecResult where
  globals : Globals
  trace : List Event
  exn : Option Exn

/-- The single constructor argument passed on line 10. -/
def constructArg : String := "hipCUB Documentation"

/-- The export loop of line 17-18 over an already fixed list of names (the
iterator of the for statement is obtained once, at loop entry).  Each
iteration first binds the loop variable sphinx_var (a module global, by
Python scoping at module level), then evaluates getattr(docs_core,
sphinx_var) through the current global binding of docs_core — which
earlier iterations may have rebound when the name docs_core is among the
iterated names, and whose absence raises NameError before any library
call.  On success the read name is bound in globals() and the loop
continues; a raised exception aborts the loop. -/
def exportLoop (lib : ROCmDocsLib) : List String → Globals → ExecResult
  | [], g => ⟨g, [], none⟩
  | n :: ns, g =>
    let g1 := setG g "sphinx_var" (Value.str n)
    match g1 "docs_core" with
    | none => ⟨g1, [], some nameError⟩
    | some recv =>
      match lib.getattr recv n with
      | .error e => ⟨g1, [Event.attrRead recv n], some e⟩
      | .ok v =>
        let r := exportLoop lib ns (setG g1 n v)
        ⟨r.globals, Event.attrRead recv n :: r.trace, r.exn⟩

/-- The SPHINX_VARS attribute of a receiver value, as line 17 evaluates it.
On the imported class it is the class-level list; on any other receiver it
is a delegated attribute lookup, and iterating anything but a list of
strings raises TypeError.  The lookup itself produces no trace event (it is
the loop-header evaluation; every getattr of line 18 is traced). -/
def sphinxListOf (lib : ROCmDocsLib) (v : Value) : Except Exn (List String) :=
  match v with
  | Value.cls => .ok lib.SPHINX_VARS
  | w =>
    match lib.getattr w "SPHINX_VARS" with
    | .ok (Value.strs l) => .ok l
    | .ok _ => .error typeError
    | .error e => .error e

/-- Lines 17-18 of conf.py as one statement execution: line 17 reads the
current global ROCmDocs (NameError if unbound) and its SPHINX_VARS
attribute to obtain the list of names to iterate, then the export loop
runs over that list. -/
def exportStmt (lib : ROCmDocsLib) (g : Globals) : ExecResult :=
  match g "ROCmDocs" with
  | none => ⟨g, [], some nameError⟩
  | some v =>
    match sphinxListOf lib v with
    | .error e => ⟨g, [], some e⟩
    | .ok names => exportLoop lib names g

/-- The module body of docs/conf.py, run from initial globals g0 against
library lib.  Line 7 binds the imported class to the global ROCmDocs;
line 10 constructs the instance and binds docs_core; lines 11-13 call
run_doxygen, enable_api_reference and setup in that order (reading the
global docs_core, which at these lines still holds the line-10 instance);
line 15 binds external_projects_current_project; lines 17-18 run the
export statement.  An exception raised by any call stops execution at that
statement. -/
def runModule (lib : ROCmDocsLib) (g0 : Globals) : ExecResult :=
  let gI := setG g0 "ROCmDocs" Value.cls
  match lib.construct constructArg with
  | .error e => ⟨gI, [Event.constructCall constructArg], some e⟩
  | .ok oid =>
    let g1 := setG gI "docs_core" (Value.obj oid)
    match lib.run_doxygen oid with
    | .error e =>
      ⟨g1, [Event.constructCall constructArg, Event.methodCall oid "run_doxygen"], some e⟩
    | .ok _ =>
      match lib.enable_api_reference oid with
      | .error e =>
        ⟨g1, [Event.constructCall constructArg, Event.methodCall oid "run_doxygen",
              Event.methodCall oid "enable_api_reference"], some e⟩
      | .ok _ =>
        match lib.setup oid with
        | .error e =>
          ⟨g1, [Event.constructCall constructArg, Event.methodCall oid "run_doxygen",
                Event.methodCall oid "enable_api_reference", Event.methodCall oid "setup"],
           some e⟩
        | .ok _ =>
          let g2 := setG g1 "external_projects_current_project" (Value.str "hipcub")
          let r := exportStmt lib g2
          ⟨r.globals,
           [Event.constructCall constructArg, Event.methodCall oid "run_doxygen",
            Event.methodCall oid "enable_api_reference", Event.methodCall oid "setup"]
             ++ r.trace,
           r.exn⟩

/-- The four call events of lines 10-13, in source order. -/
def moduleEvents (oid : Nat) : List Event :=
  [Event.constructCall constructArg, Event.methodCall oid "run_doxygen",
   Event.methodCall oid "enable_api_reference", Event.methodCall oid "setup"]

/-- The globals just before the export loop starts, on the success path:
initial state plus the bindings of lines 7, 10 and 15. -/
def preLoop (g0 : Globals) (oid : Nat) : Globals :=
  setG (setG (setG g0 "ROCmDocs" Value.cls) "docs_core" (Value.obj oid))
    "external_projects_current_project" (Value.str "hipcub")

theorem preLoop_docs_core (g0 : Globals) (oid : Nat) :
    preLoop g0 oid "docs_core" = some (Value.obj oid) := rfl

theorem preLoop_ROCmDocs (g0 : Globals) (oid : Nat) :
    preLoop g0 oid "ROCmDocs" = some Value.cls := rfl

/-- The value getattr(recv, n) yields when it succeeds (a junk default when
it raises; every use below is guarded by a success hypothesis). -/
def attrD (lib : ROCmDocsLib) (recv : Value) (n : String) : Value :=
  match lib.getattr recv n with
  | .ok v => v
  | .error _ => Value.str ""

/-- One successful iteration of the export loop with a fixed receiver, as a
transformation of the globals: bind the loop variable, then bind the read
attribute. -/
def loopStep (lib : ROCmDocsLib) (recv : Value) (g : Globals) (n : String) : Globals :=
  setG (setG g "sphinx_var" (Value.str n)) n (attrD lib recv n)

/-- The globals after the export loop completes successfully over names
with the receiver fixed (the case in which docs_core is never rebound). -/
def loopFinal (lib : ROCmDocsLib) (recv : Value) (names : List String) (g : Globals) :
    Globals :=
  names.foldl (loopStep lib recv) g

/-- What the iteration for name n writes to key k, if anything: the
attribute value when k is n itself, otherwise the loop-variable binding
when k is the name sphinx_var. -/
def iterWrite (lib : ROCmDocsLib) (recv : Value) (n k : String) : Option Value :=
  if k = n then some (attrD lib recv n)
  else if k = "sphinx_var" then some (Value.str n)
  else none

/-- The last write a successful fixed-receiver export loop over names makes
to key k, if any; later iterations win. -/
def lastWrite (lib : ROCmDocsLib) (recv : Value) : List String → String → Option Value
  | [], _ => none
  | n :: ns, k =>
    match lastWrite lib recv ns k with
    | some v => some v
    | none => iterWrite lib recv n k

theorem loopStep_eval (lib : ROCmDocsLib) (recv : Value) (g : Globals) (n k : String) :
    loopStep lib recv g n k =
      match iterWrite lib recv n k with
      | some v => some v
      | none => g k := by
  unfold loopStep iterWrite setG
  by_cases h1 : k = n
  · simp [h1]
  · by_cases h2 : k = "sphinx_var"
    · have h3 : ¬"sphinx_var" = n := fun hh => h1 (h2.trans hh)
      simp [h1, h2, h3]
    · simp [h1, h2]

theorem loopFinal_eval (lib : ROCmDocsLib) (recv : Value) :
    ∀ (names : List String) (g : Globals) (k : String),
      loopFinal lib recv names g k =
        match lastWrite lib recv names k with
        | some v => some v
        | none => g k
  | [], _, _ => rfl
  | n :: ns, g, k => by
    have step : loopFinal lib recv (n :: ns) g = loopFinal lib recv ns (loopStep lib recv g n) :=
      rfl
    rw [step, loopFinal_eval lib recv ns (loopStep lib recv g n) k, loopStep_eval]
    show _ = (match (match lastWrite lib recv ns k with
        | some v => some v
        | none => iterWrite lib recv n k) with
      | some v => some v
      | none => g k)
    cases lastWrite lib recv ns k <;> cases h : iterWrite lib recv n k <;> simp [h]

theorem loopFinal_idem (lib : ROCmDocsLib) (recv : Value) (names : List String) (g : Globals)
    (k : String) :
    loopFinal lib recv names (loopFinal lib recv names g) k = loopFinal lib recv names g k := by
  rw [loopFinal_eval, loopFinal_eval]
  cases lastWrite lib recv names k <;> simp

theorem lastWrite_eq_none (lib : ROCmDocsLib) (recv : Value) (names : List String) (k : String)
    (hk : k ∉ names) (hs : k ≠ "sphinx_var") :
    lastWrite lib recv names k = none := by
  induction names with
  | nil => rfl
  | cons n ns ih =>
    have h1 : k ≠ n := fun h => hk (h ▸ List.mem_cons_self n ns)
    have h2 : k ∉ ns := fun h => hk (List.mem_cons_of_mem _ h)
    unfold lastWrite iterWrite
    rw [ih h2]
    simp [h1, hs]

theorem lastWrite_eq_attr (lib : ROCmDocsLib) (recv : Value) (names : List String) (k : String)
    (hk : k ∈ names) (hs : k ≠ "sphinx_var") :
    lastWrite lib recv names k = some (attrD lib recv k) := by
  induction names with
  | nil => cases hk
  | cons n ns ih =>
    unfold lastWrite
    by_cases h : k ∈ ns
    · rw [ih h]
    · have hn : k = n := by
        rcases List.mem_cons.mp hk with h1 | h2
        · exact h1
        · exact absurd h2 h
      rw [lastWrite_eq_none lib recv ns k h hs]
      unfold iterWrite
      simp [hn]

theorem exportLoop_ok (lib : ROCmDocsLib) (recv : Value) :
    ∀ (names : List String) (g : Globals),
      g "docs_core" = some recv → "docs_core" ∉ names →
      (∀ n ∈ names, ∃ v, lib.getattr recv n = .ok v) →
      exportLoop lib names g =
        ⟨loopFinal lib recv names g, names.map (Event.attrRead recv), none⟩
  | [], _, _, _, _ => rfl
  | n :: ns, g, hg, hdc, h => by
    obtain ⟨v, hv⟩ := h n (List.mem_cons_self n ns)
    have hdn : "docs_core" ≠ n := fun hh => hdc (hh ▸ List.mem_cons_self n ns)
    have hg1 : setG g "sphinx_var" (Value.str n) "docs_core" = some recv := by
      rw [setG_ne _ _ _ _ (by decide)]
      exact hg
    have hstep : setG (setG g "sphinx_var" (Value.str n)) n v = loopStep lib recv g n := by
      unfold loopStep attrD
      rw [hv]
    have hg2 : loopStep lib recv g n "docs_core" = some recv := by
      rw [← hstep, setG_ne _ _ _ _ hdn]
      exact hg1
    simp only [exportLoop, hg1, hv]
    rw [hstep, exportLoop_ok lib recv ns (loopStep lib recv g n) hg2
      (fun hh => hdc (List.mem_cons_of_mem _ hh))
      (fun m hm => h m (List.mem_cons_of_mem _ hm))]
    rfl

theorem exportLoop_exn_none (lib : ROCmDocsLib) (recv : Value) :
    ∀ (names : List String) (g : Globals),
      g "docs_core" = some recv → "docs_core" ∉ names →
      (exportLoop lib names g).exn = none →
      ∀ n ∈ names, ∃ v, lib.getattr recv n = .ok v
  | [], _, _, _, _, n, hn => absurd hn (List.not_mem_nil n)
  | m :: ns, g, hg, hdc, hok, n, hn => by
    have hdm : "docs_core" ≠ m := fun hh => hdc (hh ▸ List.mem_cons_self m ns)
    have hg1 : setG g "sphinx_var" (Value.str m) "docs_core" = some recv := by
      rw [setG_ne _ _ _ _ (by decide)]
      exact hg
    cases hv : lib.getattr recv m with
    | error e =>
      simp [exportLoop, hg1, hv] at hok
    | ok v =>
      simp only [exportLoop, hg1, hv] at hok
      rcases List.mem_cons.mp hn with h1 | h2
      · exact ⟨v, h1 ▸ hv⟩
      · have hg2 : setG (setG g "sphinx_var" (Value.str m)) m v "docs_core" = some recv := by
          rw [setG_ne _ _ _ _ hdm]
          exact hg1
        exact exportLoop_exn_none lib recv ns
          (setG (setG g "sphinx_var" (Value.str m)) m v) hg2
          (fun hh => hdc (List.mem_cons_of_mem _ hh)) hok n h2

theorem exportLoop_frame (lib : ROCmDocsLib) :
    ∀ (names : List String) (g : Globals) (k : String), k ∉ names → k ≠ "sphinx_var" →
      (exportLoop lib names g).globals k = g k
  | [], _, _, _, _ => rfl
  | n :: ns, g, k, hk, hs => by
    have h1 : k ≠ n := fun h => hk (h ▸ List.mem_cons_self n ns)
    have h2 : k ∉ ns := fun h => hk (List.mem_cons_of_mem _ h)
    cases hd : setG g "sphinx_var" (Value.str n) "docs_core" with
    | none =>
      simp only [exportLoop, hd]
      show setG g "sphinx_var" (Value.str n) k = g k
      exact setG_ne _ _ _ _ hs
    | some recv =>
      cases hv : lib.getattr recv n with
      | error e =>
        simp only [exportLoop, hd, hv]
        show setG g "sphinx_var" (Value.str n) k = g k
        exact setG_ne _ _ _ _ hs
      | ok v =>
        simp only [exportLoop, hd, hv]
        show (exportLoop lib ns (setG (setG g "sphinx_var" (Value.str n)) n v)).globals k = g k
        rw [exportLoop_frame lib ns _ k h2 hs, setG_ne _ _ _ _ h1, setG_ne _ _ _ _ hs]

theorem exportLoop_trace_reads (lib : ROCmDocsLib) :
    ∀ (names : List String) (g : Globals) (ev : Event),
      ev ∈ (exportLoop lib names g).trace →
      ∃ n ∈ names, ∃ recv, ev = Event.attrRead recv n
  | [], _, _, hev => absurd hev (List.not_mem_nil _)
  | n :: ns, g, ev, hev => by
    cases hd : setG g "sphinx_var" (Value.str n) "docs_core" with
    | none =>
      simp only [exportLoop, hd] at hev
      exact absurd hev (List.not_mem_nil _)
    | some recv =>
      cases hv : lib.getattr recv n with
      | error e =>
        simp only [exportLoop, hd, hv] at hev
        exact ⟨n, List.mem_cons_self n ns, recv, List.mem_singleton.mp hev⟩
      | ok v =>
        simp only [exportLoop, hd, hv] at hev
        rcases List.mem_cons.mp hev with h1 | h2
        · exact ⟨n, List.mem_cons_self n ns, recv, h1⟩
        · obtain ⟨m, hm, recv2, hevm⟩ := exportLoop_trace_reads lib ns
            (setG (setG g "sphinx_var" (Value.str n)) n v) ev h2
          exact ⟨m, List.mem_cons_of_mem _ hm, recv2, hevm⟩

theorem runModule_ok (lib : ROCmDocsLib) (g0 : Globals) (oid : Nat)
    (hc : lib.construct constructArg = .ok oid)
    (h1 : lib.run_doxygen oid = .ok ())
    (h2 : lib.enable_api_reference oid = .ok ())
    (h3 : lib.setup oid = .ok ()) :
    runModule lib g0 =
      ⟨(exportLoop lib lib.SPHINX_VARS (preLoop g0 oid)).globals,
       moduleEvents oid ++ (exportLoop lib lib.SPHINX_VARS (preLoop g0 oid)).trace,
       (exportLoop lib lib.SPHINX_VARS (preLoop g0 oid)).exn⟩ := by
  simp only [runModule, hc, h1, h2, h3]
  rfl

theorem runModule_ok_all (lib : ROCmDocsLib) (g0 : Globals) (oid : Nat)
    (hc : lib.construct constructArg = .ok oid)
    (h1 : lib.run_doxygen oid = .ok ())
    (h2 : lib.enable_api_reference oid = .ok ())
    (h3 : lib.setup oid = .ok ())
    (hdc : "docs_core" ∉ lib.SPHINX_VARS)
    (hall : ∀ n ∈ lib.SPHINX_VARS, ∃ v, lib.getattr (Value.obj oid) n = .ok v) :
    runModule lib g0 =
      ⟨loopFinal lib (Value.obj oid) lib.SPHINX_VARS (preLoop g0 oid),
       moduleEvents oid ++ lib.SPHINX_VARS.map (Event.attrRead (Value.obj oid)),
       none⟩ := by
  rw [runModule_ok lib g0 oid hc h1 h2 h3,
    exportLoop_ok lib (Value.obj oid) lib.SPHINX_VARS (preLoop g0 oid)
      (preLoop_docs_core g0 oid) hdc hall]

theorem runModule_exn_none (lib : ROCmDocsLib) (g0 : Globals) (oid : Nat)
    (hc : lib.construct constructArg = .ok oid)
    (hexn : (runModule lib g0).exn = none) :
    lib.run_doxygen oid = .ok () ∧ lib.enable_api_reference oid = .ok () ∧
      lib.setup oid = .ok () ∧
      (exportLoop lib lib.SPHINX_VARS (preLoop g0 oid)).exn = none := by
  cases hrd : lib.run_doxygen oid with
  | error e => simp [runModule, hc, hrd] at hexn
  | ok u =>
    cases u
    cases hea : lib.enable_api_reference oid with
    | error e => simp [runModule, hc, hrd, hea] at hexn
    | ok u =>
      cases u
      cases hsu : lib.setup oid with
      | error e => simp [runModule, hc, hrd, hea, hsu] at hexn
      | ok u =>
        cases u
        refine ⟨rfl, rfl, rfl, ?_⟩
        have hmod := runModule_ok lib g0 oid hc hrd hea hsu
        rw [hmod] at hexn
        exact hexn

/-- The receiver of the next line-18 read, after the writes of the pairs in
pre have been performed starting from receiver r: the last pair written to
the name docs_core, if any, else r. -/
def recvFold (r : Value) : List (String × Value) → Value
  | [] => r
  | p :: ps => recvFold (if p.1 = "docs_core" then p.2 else r) ps

/-- Each pair of pre is read successfully, on the receiver current at its
own iteration: the first read happens on r, and a pair written to the name
docs_core changes the receiver of the reads after it. -/
def readsOkFrom (lib : ROCmDocsLib) : Value → List (String × Value) → Prop
  | _, [] => True
  | r, p :: ps => lib.getattr r p.1 = .ok p.2 ∧
      readsOkFrom lib (if p.1 = "docs_core" then p.2 else r) ps

/-- The attribute-read events of the successful iterations of pre, each on
the receiver current at its own iteration. -/
def preTraceFrom (r : Value) : List (String × Value) → List Event
  | [] => []
  | p :: ps => Event.attrRead r p.1 :: preTraceFrom (if p.1 = "docs_core" then p.2 else r) ps

theorem exportLoop_fail (lib : ROCmDocsLib) :
    ∀ (pre : List (String × Value)) (bad : String) (post : List String) (g : Globals)
      (r : Value) (e : Exn),
      g "docs_core" = some r →
      readsOkFrom lib r pre →
      lib.getattr (recvFold r pre) bad = .error e →
      exportLoop lib (pre.map Prod.fst ++ bad :: post) g =
        ⟨setG (pre.foldl (fun gg p => setG (setG gg "sphinx_var" (Value.str p.1)) p.1 p.2) g)
           "sphinx_var" (Value.str bad),
         preTraceFrom r pre ++ [Event.attrRead (recvFold r pre) bad],
         some e⟩
  | [], bad, post, g, r, e, hg, _, hbad => by
    have hg1 : setG g "sphinx_var" (Value.str bad) "docs_core" = some r := by
      rw [setG_ne _ _ _ _ (by decide)]
      exact hg
    have hbad2 : lib.getattr r bad = .error e := hbad
    simp only [List.map_nil, List.nil_append, exportLoop, hg1, hbad2]
    rfl
  | p :: pre, bad, post, g, r, e, hg, hpre, hbad => by
    obtain ⟨hp, hrest⟩ := hpre
    have hg1 : setG g "sphinx_var" (Value.str p.1) "docs_core" = some r := by
      rw [setG_ne _ _ _ _ (by decide)]
      exact hg
    have hg2 : setG (setG g "sphinx_var" (Value.str p.1)) p.1 p.2 "docs_core" =
        some (if p.1 = "docs_core" then p.2 else r) := by
      by_cases hpd : p.1 = "docs_core"
      · rw [if_pos hpd, hpd, setG_same]
      · rw [if_neg hpd, setG_ne _ _ _ _ (fun hh => hpd hh.symm)]
        exact hg1
    simp only [List.map_cons, List.cons_append, exportLoop, hg1, hp]
    simp only [List.append_eq]
    rw [exportLoop_fail lib pre bad post (setG (setG g "sphinx_var" (Value.str p.1)) p.1 p.2)
      (if p.1 = "docs_core" then p.2 else r) e hg2 hrest hbad]
    rfl

/-- The statement of conf.py at which the first exception is raised: the
constructor on line 10, one of the method calls on lines 11-13, or the
getattr on line 18 after the successful iterations pre (name-value pairs)
and before the unprocessed names post. -/
inductive FailPoint where
  | atConstruct
  | atRunDoxygen (oid : Nat)
  | atEnableApiReference (oid : Nat)
  | atSetup (oid : Nat)
  | atGetattr (oid : Nat) (pre : List (String × Value)) (bad : String) (post : List String)

/-- The library raises e at the given statement of conf.py, every call
textually before it having succeeded.  In the getattr case the earlier
reads happen on the receiver current at each iteration — the line-10
instance until a pre pair rebinds the global docs_core — and the failing
read happens on the receiver left by the last of them. -/
def failsAt (lib : ROCmDocsLib) (fp : FailPoint) (e : Exn) : Prop :=
  match fp with
  | .atConstruct => lib.construct constructArg = .error e
  | .atRunDoxygen oid =>
      lib.construct constructArg = .ok oid ∧ lib.run_doxygen oid = .error e
  | .atEnableApiReference oid =>
      lib.construct constructArg = .ok oid ∧ lib.run_doxygen oid = .ok () ∧
        lib.enable_api_reference oid = .error e
  | .atSetup oid =>
      lib.construct constructArg = .ok oid ∧ lib.run_doxygen oid = .ok () ∧
        lib.enable_api_reference oid = .ok () ∧ lib.setup oid = .error e
  | .atGetattr oid pre bad post =>
      lib.construct constructArg = .ok oid ∧ lib.run_doxygen oid = .ok () ∧
        lib.enable_api_reference oid = .ok () ∧ lib.setup oid = .ok () ∧
        lib.SPHINX_VARS = pre.map Prod.fst ++ bad :: post ∧
        readsOkFrom lib (Value.obj oid) pre ∧
        lib.getattr (recvFold (Value.obj oid) pre) bad = .error e

/-- The globals the module has produced when it aborts at the given
statement: exactly the assignments textually before that statement (on the
failing loop iteration, the loop variable is already rebound). -/
def globalsAtFail (g0 : Globals) (fp : FailPoint) : Globals :=
  match fp with
  | .atConstruct => setG g0 "ROCmDocs" Value.cls
  | .atRunDoxygen oid | .atEnableApiReference oid | .atSetup oid =>
      setG (setG g0 "ROCmDocs" Value.cls) "docs_core" (Value.obj oid)
  | .atGetattr oid pre bad _ =>
      setG (pre.foldl (fun gg p => setG (setG gg "sphinx_var" (Value.str p.1)) p.1 p.2)
        (preLoop g0 oid)) "sphinx_var" (Value.str bad)

/-- The calls the module has made when it aborts at the given statement. -/
def traceAtFail (fp : FailPoint) : List Event :=
  match fp with
  | .atConstruct => [Event.constructCall constructArg]
  | .atRunDoxygen oid =>
      [Event.constructCall constructArg, Event.methodCall oid "run_doxygen"]
  | .atEnableApiReference oid =>
      [Event.constructCall constructArg, Event.methodCall oid "run_doxygen",
       Event.methodCall oid "enable_api_reference"]
  | .atSetup oid => moduleEvents oid
  | .atGetattr oid pre bad _ =>
      moduleEvents oid ++
        (preTraceFrom (Value.obj oid) pre ++
          [Event.attrRead (recvFold (Value.obj oid) pre) bad])

/-- A concrete well-behaved library: two sphinx variables, every call
succeeds, every attribute reads back as a string naming itself. -/
def okLib : ROCmDocsLib where
  SPHINX_VARS := ["project", "author"]
  construct := fun _ => .ok 7
  run_doxygen := fun _ => .ok ()
  enable_api_reference := fun _ => .ok ()
  setup := fun _ => .ok ()
  getattr := fun _ n => .ok (Value.str n)

/-- A concrete library whose setup raises. -/
def failLib : ROCmDocsLib where
  SPHINX_VARS := ["project"]
  construct := fun _ => .ok 3
  run_doxygen := fun _ => .ok ()
  enable_api_reference := fun _ => .ok ()
  setup := fun _ => .error (Exn.mk "boom")
  getattr := fun _ n => .ok (Value.str n)

/-- A concrete library whose SPHINX_VARS contains the loop-variable name
sphinx_var and the name docs_core, each followed by another name, so that
both the loop-variable rebinding and the receiver rebinding of line 18 are
exercised in a single run.  Attributes of an object read as a string naming
themselves; attributes of any other (rebound) receiver read as a marker
string. -/
def c1Lib : ROCmDocsLib where
  SPHINX_VARS := ["sphinx_var", "docs_core", "project"]
  construct := fun _ => .ok 0
  run_doxygen := fun _ => .ok ()
  enable_api_reference := fun _ => .ok ()
  setup := fun _ => .ok ()
  getattr := fun recv n =>
    match recv with
    | Value.obj _ => .ok (Value.str (n ++ "_value"))
    | _ => .ok (Value.str "via_alias")

/-- A concrete library whose SPHINX_VARS contains the name docs_core. -/
def c8Lib : ROCmDocsLib where
  SPHINX_VARS := ["docs_core"]
  construct := fun _ => .ok 0
  run_doxygen := fun _ => .ok ()
  enable_api_reference := fun _ => .ok ()
  setup := fun _ => .ok ()
  getattr := fun _ _ => .ok (Value.str "not_the_instance")

/-- A concrete library whose SPHINX_VARS is the single name ROCmDocs: the
first loop run rebinds the global ROCmDocs to another object whose own
SPHINX_VARS attribute is a different list, while docs_core stays fixed and
every read is deterministic. -/
def c9Lib : ROCmDocsLib where
  SPHINX_VARS := ["ROCmDocs"]
  construct := fun _ => .ok 0
  run_doxygen := fun _ => .ok ()
  enable_api_reference := fun _ => .ok ()
  setup := fun _ => .ok ()
  getattr := fun recv n =>
    match recv with
    | Value.obj 0 =>
      if n = "ROCmDocs" then .ok (Value.obj 99) else .ok (Value.str (n ++ "_value"))
    | Value.obj _ =>
      if n = "SPHINX_VARS" then .ok (Value.strs ["other"]) else .ok (Value.str "x")
    | _ => .error (Exn.mk "AttributeError")

/-- Claim C4: conf.py contains no exception handling.  If any rocm_docs
call raises — the constructor, run_doxygen, enable_api_reference, setup, or
a getattr in the export loop — that exception propagates unchanged to the
importer, and the module state shows exactly the assignments textually
before the failing statement: no assignment after it is performed. -/
theorem c4_no_failure_handling (lib : ROCmDocsLib) (g0 : Globals) (fp : FailPoint) (e : Exn)
    (h : failsAt lib fp e) :
    runModule lib g0 = ⟨globalsAtFail g0 fp, traceAtFail fp, some e⟩ := by
  cases fp with
  | atConstruct =>
    have hc : lib.construct constructArg = .error e := h
    simp only [runModule, hc]
    rfl
  | atRunDoxygen oid =>
    obtain ⟨hc, hr⟩ := h
    simp only [runModule, hc, hr]
    rfl
  | atEnableApiReference oid =>
    obtain ⟨hc, hr, he⟩ := h
    simp only [runModule, hc, hr, he]
    rfl
  | atSetup oid =>
    obtain ⟨hc, hr, he, hs⟩ := h
    simp only [runModule, hc, hr, he, hs]
    rfl
  | atGetattr oid pre bad post =>
    obtain ⟨hc, hr, he, hs, hvars, hpre, hbad⟩ := h
    rw [runModule_ok lib g0 oid hc hr he hs, hvars,
      exportLoop_fail lib pre bad post (preLoop g0 oid) (Value.obj oid) e
        (preLoop_docs_core g0 oid) hpre hbad]
    rfl

/-- Witness for C4: a library whose setup raises; the module aborts with
that very exception and the line-15 assignment is never performed. -/
theorem c4_witness :
    failsAt failLib (FailPoint.atSetup 3) (Exn.mk "boom") ∧
    runModule failLib gEmpty =
      ⟨globalsAtFail gEmpty (FailPoint.atSetup 3), traceAtFail (FailPoint.atSetup 3),
       some (Exn.mk "boom")⟩ ∧
    (runModule failLib gEmpty).globals "external_projects_current_project" = none :=
  ⟨⟨rfl, rfl, rfl, rfl⟩,
   c4_no_failure_handling failLib gEmpty (FailPoint.atSetup 3) (Exn.mk "boom")
     ⟨rfl, rfl, rfl, rfl⟩,
   rfl⟩

/-- The exact character content of src/docs/conf.py, line by line.  The
file does not end with a trailing newline, so its text is these eighteen
lines joined by single newline characters. -/
def confPyLines : List String :=
  ["# Configuration file for the Sphinx documentation builder.",
   "#",
   "# This file only contains a selection of the most common options. For a full",
   "# list see the documentation:",
   "# https://www.sphinx-doc.org/en/master/usage/configuration.html",
   "",
   "from rocm_docs import ROCmDocs",
   "",
   "",
   "docs_core = ROCmDocs(\"hipCUB Documentation\")",
   "docs_core.run_doxygen()",
   "docs_core.enable_api_reference()",
   "docs_core.setup()",
   "",
   "external_projects_current_project = \"hipcub\"",
   "",
   "for sphinx_var in ROCmDocs.SPHINX_VARS:",
   "    globals()[sphinx_var] = getattr(docs_core, sphinx_var)"]

/-- The full text of src/docs/conf.py. -/
def confPy : String := String.intercalate "\n" confPyLines

/-- Splitting a character sequence at newline characters: a text containing
k newlines consists of k + 1 lines. -/
def splitNl : List Char → List (List Char)
  | [] => [[]]
  | c :: cs =>
    if c = '\n' then [] :: splitNl cs
    else
      match splitNl cs with
      | [] => [[c]]
      | l :: ls => (c :: l) :: ls

/-- Claim C6: the source file src/docs/conf.py consists of exactly 18
lines (the eighteenth line is not newline-terminated). -/
theorem c6_file_has_18_lines : (splitNl confPy.data).length = 18 := by decide

/-- Recognizer for constructor-call events. -/
def Event.isConstruct : Event → Bool
  | .constructCall _ => true
  | _ => false

/-- Claim C2: executing the module makes exactly one constructor call, and
that call passes the single argument "hipCUB Documentation"; the global
docs_core is bound to the constructed instance and, since the name
docs_core is not among the sphinx variables, still refers to it when the
module finishes. -/
theorem c2_single_construction (lib : ROCmDocsLib) (g0 : Globals) (oid : Nat)
    (hc : lib.construct constructArg = .ok oid)
    (hdc : "docs_core" ∉ lib.SPHINX_VARS) :
    (runModule lib g0).trace.filter Event.isConstruct =
        [Event.constructCall "hipCUB Documentation"] ∧
    (runModule lib g0).globals "docs_core" = some (Value.obj oid) := by
  cases hrd : lib.run_doxygen oid with
  | error e =>
    refine ⟨?_, ?_⟩ <;> simp only [runModule, hc, hrd] <;> rfl
  | ok u =>
    cases u
    cases hea : lib.enable_api_reference oid with
    | error e =>
      refine ⟨?_, ?_⟩ <;> simp only [runModule, hc, hrd, hea] <;> rfl
    | ok u =>
      cases u
      cases hsu : lib.setup oid with
      | error e =>
        refine ⟨?_, ?_⟩ <;> simp only [runModule, hc, hrd, hea, hsu] <;> rfl
      | ok u =>
        cases u
        rw [runModule_ok lib g0 oid hc hrd hea hsu]
        constructor
        · show (moduleEvents oid ++
              (exportLoop lib lib.SPHINX_VARS (preLoop g0 oid)).trace).filter
              Event.isConstruct = _
          rw [List.filter_append]
          have hloop :
              (exportLoop lib lib.SPHINX_VARS (preLoop g0 oid)).trace.filter
                Event.isConstruct = [] := by
            rw [List.filter_eq_nil_iff]
            intro ev hev
            obtain ⟨m, _, recv, hevm⟩ := exportLoop_trace_reads lib lib.SPHINX_VARS
              (preLoop g0 oid) ev hev
            rw [hevm]
            simp [Event.isConstruct]
          rw [hloop]
          rfl
        · show (exportLoop lib lib.SPHINX_VARS (preLoop g0 oid)).globals "docs_core" =
            some (Value.obj oid)
          rw [exportLoop_frame lib lib.SPHINX_VARS (preLoop g0 oid) "docs_core" hdc
            (by decide)]
          rfl

/-- Witness for C2 at a concrete well-behaved library. -/
theorem c2_witness :
    okLib.construct constructArg = .ok 7 ∧ "docs_core" ∉ okLib.SPHINX_VARS ∧
    ((runModule okLib gEmpty).trace.filter Event.isConstruct =
        [Event.constructCall "hipCUB Documentation"] ∧
      (runModule okLib gEmpty).globals "docs_core" = some (Value.obj 7)) :=
  ⟨rfl, by decide, c2_single_construction okLib gEmpty 7 rfl (by decide)⟩

/-- Recognizer for method-call events. -/
def Event.isMethod : Event → Bool
  | .methodCall _ _ => true
  | _ => false

/-- Claim C3: on an execution in which all three calls return, the method
calls made are exactly run_doxygen, enable_api_reference and setup, each
once, each carrying no argument (the source passes none), and all on the
one instance constructed on line 10. -/
theorem c3_methods_called_once (lib : ROCmDocsLib) (g0 : Globals) (oid : Nat)
    (hc : lib.construct constructArg = .ok oid)
    (h1 : lib.run_doxygen oid = .ok ())
    (h2 : lib.enable_api_reference oid = .ok ())
    (h3 : lib.setup oid = .ok ()) :
    (runModule lib g0).trace.filter Event.isMethod =
      [Event.methodCall oid "run_doxygen", Event.methodCall oid "enable_api_reference",
       Event.methodCall oid "setup"] := by
  rw [runModule_ok lib g0 oid hc h1 h2 h3]
  show (moduleEvents oid ++
      (exportLoop lib lib.SPHINX_VARS (preLoop g0 oid)).trace).filter Event.isMethod = _
  rw [List.filter_append]
  have hloop :
      (exportLoop lib lib.SPHINX_VARS (preLoop g0 oid)).trace.filter Event.isMethod
        = [] := by
    rw [List.filter_eq_nil_iff]
    intro ev hev
    obtain ⟨m, _, recv, hevm⟩ := exportLoop_trace_reads lib lib.SPHINX_VARS
      (preLoop g0 oid) ev hev
    rw [hevm]
    simp [Event.isMethod]
  rw [hloop]
  rfl

/-- Witness for C3 at a concrete well-behaved library. -/
theorem c3_witness :
    okLib.construct constructArg = .ok 7 ∧
    (runModule okLib gEmpty).trace.filter Event.isMethod =
      [Event.methodCall 7 "run_doxygen", Event.methodCall 7 "enable_api_reference",
       Event.methodCall 7 "setup"] :=
  ⟨rfl, c3_methods_called_once okLib gEmpty 7 rfl rfl rfl rfl⟩

/-- Claim C1 as stated is false, in two ways exercised by one run.  With a
library whose SPHINX_VARS is [sphinx_var, docs_core, project] the module
completes normally, yet: the final global sphinx_var is the string project
(the later loop iterations rebound the loop variable after its export), not
its getattr value; and the final global project is the marker read through
the rebound docs_core — the docs_core iteration replaced the receiver, so
the project read never saw the line-10 instance, whose project attribute is
a different string. -/
theorem c1_counterexample :
    (runModule c1Lib gEmpty).exn = none ∧
    c1Lib.construct constructArg = .ok 0 ∧
    "sphinx_var" ∈ c1Lib.SPHINX_VARS ∧
    "project" ∈ c1Lib.SPHINX_VARS ∧
    c1Lib.getattr (Value.obj 0) "sphinx_var" = .ok (Value.str "sphinx_var_value") ∧
    (runModule c1Lib gEmpty).globals "sphinx_var" = some (Value.str "project") ∧
    c1Lib.getattr (Value.obj 0) "project" = .ok (Value.str "project_value") ∧
    (runModule c1Lib gEmpty).globals "project" = some (Value.str "via_alias") ∧
    Value.str "project" ≠ Value.str "sphinx_var_value" ∧
    Value.str "via_alias" ≠ Value.str "project_value" :=
  ⟨rfl, rfl, by decide, by decide, rfl, rfl, rfl, rfl, by decide, by decide⟩

/-- Claim C1 (amended): after the module completes normally, and provided
the name docs_core is not itself in SPHINX_VARS (so the loop never rebinds
the receiver of the reads), every name in SPHINX_VARS other than the
loop-variable name sphinx_var is bound in the module's global namespace to
the value of getattr on the line-10 instance; a member named sphinx_var is
also assigned but can be rebound by the loop variable of a later iteration,
and a member named docs_core redirects all later reads through the value it
rebinds. -/
theorem c1_exports_sphinx_vars (lib : ROCmDocsLib) (g0 : Globals) (oid : Nat) (n : String)
    (hc : lib.construct constructArg = .ok oid)
    (hexn : (runModule lib g0).exn = none)
    (hdc : "docs_core" ∉ lib.SPHINX_VARS)
    (hn : n ∈ lib.SPHINX_VARS) (hs : n ≠ "sphinx_var") :
    ∃ v, lib.getattr (Value.obj oid) n = .ok v ∧ (runModule lib g0).globals n = some v := by
  obtain ⟨h1, h2, h3, hloop⟩ := runModule_exn_none lib g0 oid hc hexn
  have hall := exportLoop_exn_none lib (Value.obj oid) lib.SPHINX_VARS (preLoop g0 oid)
    (preLoop_docs_core g0 oid) hdc hloop
  rw [runModule_ok_all lib g0 oid hc h1 h2 h3 hdc hall]
  refine ⟨attrD lib (Value.obj oid) n, ?_, ?_⟩
  · obtain ⟨v, hv⟩ := hall n hn
    unfold attrD
    rw [hv]
  · show loopFinal lib (Value.obj oid) lib.SPHINX_VARS (preLoop g0 oid) n =
      some (attrD lib (Value.obj oid) n)
    rw [loopFinal_eval, lastWrite_eq_attr lib (Value.obj oid) lib.SPHINX_VARS n hn hs]

/-- Witness for the amended C1 at a concrete well-behaved library. -/
theorem c1_witness :
    okLib.construct constructArg = .ok 7 ∧ (runModule okLib gEmpty).exn = none ∧
    "docs_core" ∉ okLib.SPHINX_VARS ∧ "project" ∈ okLib.SPHINX_VARS ∧
    (∃ v, okLib.getattr (Value.obj 7) "project" = .ok v ∧
      (runModule okLib gEmpty).globals "project" = some v) :=
  ⟨rfl, rfl, by decide, by decide,
   c1_exports_sphinx_vars okLib gEmpty 7 "project" rfl rfl (by decide) (by decide)
     (by decide)⟩

/-- An event is a delegated rocm_docs call of conf.py: the line-10
constructor call with its one argument, one of the three line-11-13 method
calls on the constructed instance, or a line-18 attribute read of a
SPHINX_VARS name on the then-current value of the docs_core global. -/
def delegated (lib : ROCmDocsLib) (ev : Event) : Prop :=
  ev = Event.constructCall constructArg ∨
    ∃ oid, lib.construct constructArg = .ok oid ∧
      (ev = Event.methodCall oid "run_doxygen" ∨
       ev = Event.methodCall oid "enable_api_reference" ∨
       ev = Event.methodCall oid "setup" ∨
       ∃ n ∈ lib.SPHINX_VARS, ∃ recv, ev = Event.attrRead recv n)

/-- Claim C5: the module body has no effects of its own beyond binding
module globals; every event in the execution trace, on every execution, is
a delegated call into the external rocm_docs library.  In particular the
trace contains nothing representing scheduling, state management, I/O
orchestration, serialization or networking performed by conf.py itself. -/
theorem c5_only_delegation (lib : ROCmDocsLib) (g0 : Globals) :
    ∀ ev ∈ (runModule lib g0).trace, delegated lib ev := by
  intro ev hev
  cases hc : lib.construct constructArg with
  | error e =>
    simp only [runModule, hc, List.mem_singleton] at hev
    exact Or.inl hev
  | ok oid =>
    cases hrd : lib.run_doxygen oid with
    | error e =>
      simp only [runModule, hc, hrd, List.mem_cons, List.not_mem_nil, or_false] at hev
      rcases hev with rfl | rfl
      · exact Or.inl rfl
      · exact Or.inr ⟨oid, hc, Or.inl rfl⟩
    | ok u =>
      cases u
      cases hea : lib.enable_api_reference oid with
      | error e =>
        simp only [runModule, hc, hrd, hea, List.mem_cons, List.not_mem_nil, or_false] at hev
        rcases hev with rfl | rfl | rfl
        · exact Or.inl rfl
        · exact Or.inr ⟨oid, hc, Or.inl rfl⟩
        · exact Or.inr ⟨oid, hc, Or.inr (Or.inl rfl)⟩
      | ok u =>
        cases u
        cases hsu : lib.setup oid with
        | error e =>
          simp only [runModule, hc, hrd, hea, hsu, List.mem_cons, List.not_mem_nil,
            or_false] at hev
          rcases hev with rfl | rfl | rfl | rfl
          · exact Or.inl rfl
          · exact Or.inr ⟨oid, hc, Or.inl rfl⟩
          · exact Or.inr ⟨oid, hc, Or.inr (Or.inl rfl)⟩
          · exact Or.inr ⟨oid, hc, Or.inr (Or.inr (Or.inl rfl))⟩
        | ok u =>
          cases u
          rw [runModule_ok lib g0 oid hc hrd hea hsu] at hev
          have hev2 : ev ∈ moduleEvents oid ∨
              ev ∈ (exportLoop lib lib.SPHINX_VARS (preLoop g0 oid)).trace :=
            List.mem_append.mp hev
          rcases hev2 with hm | hl
          · simp only [moduleEvents, List.mem_cons, List.not_mem_nil, or_false] at hm
            rcases hm with rfl | rfl | rfl | rfl
            · exact Or.inl rfl
            · exact Or.inr ⟨oid, hc, Or.inl rfl⟩
            · exact Or.inr ⟨oid, hc, Or.inr (Or.inl rfl)⟩
            · exact Or.inr ⟨oid, hc, Or.inr (Or.inr (Or.inl rfl))⟩
          · obtain ⟨n, hn, recv, hevn⟩ := exportLoop_trace_reads lib lib.SPHINX_VARS
              (preLoop g0 oid) ev hl
            exact Or.inr ⟨oid, hc, Or.inr (Or.inr (Or.inr ⟨n, hn, recv, hevn⟩))⟩

/-- Witness for C5: the constructor call of a concrete execution is a
delegated call. -/
theorem c5_witness : delegated okLib (Event.constructCall constructArg) :=
  c5_only_delegation okLib gEmpty (Event.constructCall constructArg) (by decide)

/-- The position of an event in the fixed statement order of conf.py:
construction (line 10), then run_doxygen (11), enable_api_reference (12),
setup (13), then the attribute reads of the export loop (18). -/
def phase : Event → Nat
  | .constructCall _ => 0
  | .methodCall _ m =>
    if m = "run_doxygen" then 1 else if m = "enable_api_reference" then 2 else 3
  | .attrRead _ _ => 4

theorem pairwise_le_of_const (c : Nat) : ∀ (l : List Nat), (∀ a ∈ l, a = c) →
    l.Pairwise (fun a b => a ≤ b)
  | [], _ => List.Pairwise.nil
  | x :: xs, h => by
    constructor
    · intro b hb
      rw [h x (List.mem_cons_self x xs), h b (List.mem_cons_of_mem _ hb)]
    · exact pairwise_le_of_const c xs (fun a ha => h a (List.mem_cons_of_mem _ ha))

/-- Claim C7: on every execution, the trace is sorted by statement phase:
the constructor call precedes run_doxygen, which completes before
enable_api_reference begins, which completes before setup begins, and all
of them precede every attribute read of the export loop. -/
theorem c7_fixed_call_order (lib : ROCmDocsLib) (g0 : Globals) :
    ((runModule lib g0).trace.map phase).Pairwise (fun a b => a ≤ b) := by
  cases hc : lib.construct constructArg with
  | error e =>
    simp only [runModule, hc]
    decide
  | ok oid =>
    cases hrd : lib.run_doxygen oid with
    | error e =>
      simp only [runModule, hc, hrd]
      have hmap : [Event.constructCall constructArg,
          Event.methodCall oid "run_doxygen"].map phase = [0, 1] := rfl
      show ([Event.constructCall constructArg,
        Event.methodCall oid "run_doxygen"].map phase).Pairwise (fun a b => a ≤ b)
      rw [hmap]
      decide
    | ok u =>
      cases u
      cases hea : lib.enable_api_reference oid with
      | error e =>
        simp only [runModule, hc, hrd, hea]
        have hmap : [Event.constructCall constructArg, Event.methodCall oid "run_doxygen",
            Event.methodCall oid "enable_api_reference"].map phase = [0, 1, 2] := rfl
        show ([Event.constructCall constructArg, Event.methodCall oid "run_doxygen",
          Event.methodCall oid "enable_api_reference"].map phase).Pairwise (fun a b => a ≤ b)
        rw [hmap]
        decide
      | ok u =>
        cases u
        cases hsu : lib.setup oid with
        | error e =>
          simp only [runModule, hc, hrd, hea, hsu]
          have hmap : [Event.constructCall constructArg, Event.methodCall oid "run_doxygen",
              Event.methodCall oid "enable_api_reference",
              Event.methodCall oid "setup"].map phase = [0, 1, 2, 3] := rfl
          show ([Event.constructCall constructArg, Event.methodCall oid "run_doxygen",
            Event.methodCall oid "enable_api_reference",
            Event.methodCall oid "setup"].map phase).Pairwise (fun a b => a ≤ b)
          rw [hmap]
          decide
        | ok u =>
          cases u
          rw [runModule_ok lib g0 oid hc hrd hea hsu]
          show ((moduleEvents oid ++
            (exportLoop lib lib.SPHINX_VARS (preLoop g0 oid)).trace).map
              phase).Pairwise (fun a b => a ≤ b)
          rw [List.map_append, List.pairwise_append]
          have hread : ∀ a ∈ ((exportLoop lib lib.SPHINX_VARS
              (preLoop g0 oid)).trace).map phase, a = 4 := by
            intro a ha
            obtain ⟨ev, hev, rfl⟩ := List.mem_map.mp ha
            obtain ⟨n, _, recv, rfl⟩ := exportLoop_trace_reads lib lib.SPHINX_VARS
              (preLoop g0 oid) ev hev
            rfl
          have hmod : (moduleEvents oid).map phase = [0, 1, 2, 3] := rfl
          refine ⟨by rw [hmod]; decide, pairwise_le_of_const 4 _ hread, ?_⟩
          intro a ha b hb
          rw [hread b hb]
          rw [hmod] at ha
          rcases List.mem_cons.mp ha with rfl | ha
          · omega
          rcases List.mem_cons.mp ha with rfl | ha
          · omega
          rcases List.mem_cons.mp ha with rfl | ha
          · omega
          rcases List.mem_cons.mp ha with rfl | ha
          · omega
          · exact absurd ha (List.not_mem_nil a)

/-- Claim C8 as stated is false: with a library whose SPHINX_VARS is the
list [docs_core], the module completes normally, yet the loop has created a
binding for the name sphinx_var, which is not in SPHINX_VARS and was unbound
before, and docs_core no longer refers to the instance constructed on
line 10 but to the read attribute value. -/
theorem c8_counterexample :
    (runModule c8Lib gEmpty).exn = none ∧
    c8Lib.construct constructArg = .ok 0 ∧
    "sphinx_var" ∉ c8Lib.SPHINX_VARS ∧
    gEmpty "sphinx_var" = none ∧
    (runModule c8Lib gEmpty).globals "sphinx_var" = some (Value.str "docs_core") ∧
    (runModule c8Lib gEmpty).globals "docs_core" = some (Value.str "not_the_instance") ∧
    Value.str "not_the_instance" ≠ Value.obj 0 :=
  ⟨rfl, rfl, by decide, rfl, rfl, rfl, by decide⟩

/-- Claim C8 (amended): the export loop assigns only globals named in
SPHINX_VARS together with the loop variable sphinx_var, and changes no
other binding; consequently, after a normal completion, if the name
external_projects_current_project is not in SPHINX_VARS that global still
equals the string hipcub, and if the name docs_core is not in SPHINX_VARS
then docs_core still refers to the instance constructed on line 10. -/
theorem c8_loop_frame (lib : ROCmDocsLib) (g0 : Globals) (oid : Nat)
    (hc : lib.construct constructArg = .ok oid)
    (hexn : (runModule lib g0).exn = none) :
    (∀ (names : List String) (g : Globals) (k : String),
        k ∉ names → k ≠ "sphinx_var" → (exportLoop lib names g).globals k = g k) ∧
    ("external_projects_current_project" ∉ lib.SPHINX_VARS →
        (runModule lib g0).globals "external_projects_current_project" =
          some (Value.str "hipcub")) ∧
    ("docs_core" ∉ lib.SPHINX_VARS →
        (runModule lib g0).globals "docs_core" = some (Value.obj oid)) := by
  obtain ⟨h1, h2, h3, hloop⟩ := runModule_exn_none lib g0 oid hc hexn
  refine ⟨exportLoop_frame lib, ?_, ?_⟩
  · intro hmem
    rw [runModule_ok lib g0 oid hc h1 h2 h3]
    show (exportLoop lib lib.SPHINX_VARS (preLoop g0 oid)).globals
      "external_projects_current_project" = some (Value.str "hipcub")
    rw [exportLoop_frame lib lib.SPHINX_VARS (preLoop g0 oid)
      "external_projects_current_project" hmem (by decide)]
    rfl
  · intro hmem
    rw [runModule_ok lib g0 oid hc h1 h2 h3]
    show (exportLoop lib lib.SPHINX_VARS (preLoop g0 oid)).globals "docs_core" =
      some (Value.obj oid)
    rw [exportLoop_frame lib lib.SPHINX_VARS (preLoop g0 oid) "docs_core" hmem
      (by decide)]
    rfl

/-- Witness for the amended C8 at a concrete well-behaved library. -/
theorem c8_witness :
    (runModule okLib gEmpty).globals "external_projects_current_project" =
        some (Value.str "hipcub") ∧
    (runModule okLib gEmpty).globals "docs_core" = some (Value.obj 7) ∧
    (exportLoop okLib okLib.SPHINX_VARS gEmpty).globals "unrelated" = gEmpty "unrelated" :=
  ⟨(c8_loop_frame okLib gEmpty 7 rfl rfl).2.1 (by decide),
   (c8_loop_frame okLib gEmpty 7 rfl rfl).2.2 (by decide),
   (c8_loop_frame okLib gEmpty 7 rfl rfl).1 okLib.SPHINX_VARS gEmpty "unrelated"
     (by decide) (by decide)⟩

/-- Claim C9 as stated is false: with a library whose SPHINX_VARS is the
single name ROCmDocs, the first execution of lines 17-18 completes, keeps
docs_core fixed on the line-10 instance, and rebinds the global ROCmDocs;
re-executing lines 17-18 immediately afterwards re-reads that global index,
obtains a different SPHINX_VARS list from the rebound object, and — with
docs_core fixed and every read deterministic — changes the namespace: it
creates the binding other and moves sphinx_var. -/
theorem c9_counterexample :
    (exportStmt c9Lib (preLoop gEmpty 0)).exn = none ∧
    (exportStmt c9Lib (exportStmt c9Lib (preLoop gEmpty 0)).globals).exn = none ∧
    (exportStmt c9Lib (preLoop gEmpty 0)).globals "docs_core" = some (Value.obj 0) ∧
    (exportStmt c9Lib (exportStmt c9Lib (preLoop gEmpty 0)).globals).globals "docs_core" =
      some (Value.obj 0) ∧
    (exportStmt c9Lib (preLoop gEmpty 0)).globals "other" = none ∧
    (exportStmt c9Lib (exportStmt c9Lib (preLoop gEmpty 0)).globals).globals "other" =
      some (Value.str "other_value") ∧
    (exportStmt c9Lib (preLoop gEmpty 0)).globals "sphinx_var" =
      some (Value.str "ROCmDocs") ∧
    (exportStmt c9Lib (exportStmt c9Lib (preLoop gEmpty 0)).globals).globals "sphinx_var" =
      some (Value.str "other") :=
  ⟨rfl, rfl, rfl, rfl, rfl, rfl, rfl, rfl⟩

/-- Claim C9 (amended): the export statement of lines 17-18 is idempotent
provided the loop rebinds neither the global ROCmDocs nor the global
docs_core, that is, neither name is an element of SPHINX_VARS: re-executing
it immediately after a successful execution reads the same list through the
unchanged ROCmDocs global, reads every attribute through the unchanged
docs_core global (reads are deterministic in this model), succeeds, and
leaves every global exactly as the first execution did. -/
theorem c9_idempotent_when_no_rebinding (lib : ROCmDocsLib) (g : Globals) (recv : Value)
    (hR : g "ROCmDocs" = some Value.cls)
    (hD : g "docs_core" = some recv)
    (hnR : "ROCmDocs" ∉ lib.SPHINX_VARS)
    (hnD : "docs_core" ∉ lib.SPHINX_VARS)
    (hok : (exportStmt lib g).exn = none) :
    (exportStmt lib (exportStmt lib g).globals).exn = none ∧
    ∀ k, (exportStmt lib (exportStmt lib g).globals).globals k =
      (exportStmt lib g).globals k := by
  have hstmt : exportStmt lib g = exportLoop lib lib.SPHINX_VARS g := by
    unfold exportStmt
    rw [hR]
    rfl
  rw [hstmt] at hok ⊢
  have hall := exportLoop_exn_none lib recv lib.SPHINX_VARS g hD hnD hok
  rw [exportLoop_ok lib recv lib.SPHINX_VARS g hD hnD hall]
  show (exportStmt lib (loopFinal lib recv lib.SPHINX_VARS g)).exn = none ∧
    ∀ k, (exportStmt lib (loopFinal lib recv lib.SPHINX_VARS g)).globals k =
      loopFinal lib recv lib.SPHINX_VARS g k
  have hR2 : loopFinal lib recv lib.SPHINX_VARS g "ROCmDocs" = some Value.cls := by
    rw [loopFinal_eval, lastWrite_eq_none lib recv lib.SPHINX_VARS "ROCmDocs" hnR (by decide)]
    exact hR
  have hD2 : loopFinal lib recv lib.SPHINX_VARS g "docs_core" = some recv := by
    rw [loopFinal_eval, lastWrite_eq_none lib recv lib.SPHINX_VARS "docs_core" hnD (by decide)]
    exact hD
  have hstmt2 : exportStmt lib (loopFinal lib recv lib.SPHINX_VARS g) =
      exportLoop lib lib.SPHINX_VARS (loopFinal lib recv lib.SPHINX_VARS g) := by
    unfold exportStmt
    rw [hR2]
    rfl
  rw [hstmt2,
    exportLoop_ok lib recv lib.SPHINX_VARS (loopFinal lib recv lib.SPHINX_VARS g) hD2 hnD hall]
  exact ⟨rfl, fun k => loopFinal_idem lib recv lib.SPHINX_VARS g k⟩

/-- Witness for the amended C9 at a concrete well-behaved library, started
from the state the module reaches just before line 17. -/
theorem c9_witness :
    (exportStmt okLib (preLoop gEmpty 7)).exn = none ∧
    (exportStmt okLib (exportStmt okLib (preLoop gEmpty 7)).globals).exn = none ∧
    (exportStmt okLib (exportStmt okLib (preLoop gEmpty 7)).globals).globals "project" =
      (exportStmt okLib (preLoop gEmpty 7)).globals "project" :=
  ⟨rfl,
   (c9_idempotent_when_no_rebinding okLib (preLoop gEmpty 7) (Value.obj 7) rfl rfl
     (by decide) (by decide) rfl).1,
   (c9_idempotent_when_no_rebinding okLib (preLoop gEmpty 7) (Value.obj 7) rfl rfl
     (by decide) (by decide) rfl).2 "project"⟩

end HipcubConf
